import Mathlib

/-!
Verification of the crawl frontier / URL classification and deduplication core
of the `playwright-generic` e-commerce crawler (`src/main.ts`, `src/service.ts`).

The embedding below follows the TypeScript source:
* `normalizeUrl(url, baseUrl)` wraps Node's WHATWG `new URL(url, baseUrl).href`
  and returns `""` when the constructor throws.  The WHATWG basic URL parser is
  modelled by `Crawler.parseUrl` on the fragment exercised by the crawler:
  scheme parsing, special schemes, opaque-path URLs (e.g. `javascript:`),
  authority/host parsing with forbidden-host-code-point validation, relative
  reference resolution against a base, dot-segment removal and percent-encoding
  of the path percent-encode set.  Userinfo, ports, IP-address hosts,
  backslash slash-equivalents and non-ASCII IDNA are outside the fragment.
* `isProductUrl` / `isListingUrl` build one JavaScript `RegExp` per pattern per
  call (`patterns.some(p => new RegExp(p).test(url))`); the regex engine is
  modelled by `Crawler.compileRegex` / `Crawler.rtest` on the constructs used
  by the crawler's patterns (literals, `.`, classes, `^`/`$`, `*`/`+`/`?`,
  `(?:...)` groups, alternation); compilation failure models the `RegExp`
  constructor throwing on an invalid pattern.
* The `EcommerceCrawler` state (the `processedUrls` set, the Crawlee request
  queue with its `maxRequestsPerCrawl` cutoff, and the two router handlers) is
  modelled by `Crawler.crawlerRun`.
-/

namespace Crawler

/-! ## Characters and generic list helpers -/

/-- Lowercase an ASCII letter, leave every other character unchanged
(used for schemes and hosts, as the WHATWG parser does). -/
def lowerChar (c : Char) : Char :=
  if 'A' ≤ c ∧ c ≤ 'Z' then Char.ofNat (c.toNat + 32) else c

/-- First character of a URL scheme: an ASCII alpha. -/
def isSchemeStartChar (c : Char) : Bool :=
  ('a' ≤ c && c ≤ 'z') || ('A' ≤ c && c ≤ 'Z')

/-- Subsequent characters of a URL scheme: ASCII alphanumeric, `+`, `-`, `.`. -/
def isSchemeChar (c : Char) : Bool :=
  isSchemeStartChar c || ('0' ≤ c && c ≤ '9') || c == '+' || c == '-' || c == '.'

/-- Split the input at the first occurrence of `sep`; the second component is
`none` when `sep` does not occur. -/
def splitFirst (sep : Char) : List Char → List Char × Option (List Char)
  | [] => ([], none)
  | c :: cs =>
    if c = sep then ([], some cs)
    else
      let (a, b) := splitFirst sep cs
      (c :: a, b)

/-- Take characters until one of `stops` is hit; returns (prefix, rest including
the stop character). -/
def takeUntilAny (stops : List Char) : List Char → List Char × List Char
  | [] => ([], [])
  | c :: cs =>
    if stops.contains c then ([], c :: cs)
    else
      let (a, b) := takeUntilAny stops cs
      (c :: a, b)

/-- Split a character list on `/` boundaries (always returns at least one,
possibly empty, segment). -/
def splitOnSlash : List Char → List (List Char)
  | [] => [[]]
  | '/' :: cs => [] :: splitOnSlash cs
  | c :: cs =>
    match splitOnSlash cs with
    | seg :: rest => (c :: seg) :: rest
    | [] => [[c]]

/-! ## WHATWG URL model -/

/-- The special schemes of the WHATWG URL standard. -/
def specialSchemes : List (List Char) :=
  ["http".data, "https".data, "ws".data, "wss".data, "ftp".data, "file".data]

/-- Input preprocessing of the WHATWG basic URL parser: remove all ASCII tab /
newline characters and strip leading and trailing C0-control-or-space. -/
def urlTrim (s : List Char) : List Char :=
  let noTabNl := s.filter fun c => c ≠ '\t' ∧ c ≠ '\n' ∧ c ≠ '\r'
  ((noTabNl.dropWhile fun c => c ≤ ' ').reverse.dropWhile fun c => c ≤ ' ').reverse

/-- A parsed URL record.  `host = none` encodes an opaque-path URL (a URL
without an authority, e.g. `javascript:void(0)` or `mailto:x`). -/
structure ParsedUrl where
  scheme : List Char
  host : Option (List Char)
  path : List Char
  query : Option (List Char)
  fragment : Option (List Char)
  deriving Repr, DecidableEq

/-- Uppercase hexadecimal digit of `n % 16`. -/
def hexDigit (n : Nat) : Char :=
  if n % 16 < 10 then Char.ofNat (48 + n % 16) else Char.ofNat (55 + n % 16)

/-- Percent-encode one character (ASCII fragment: one byte). -/
def percentEncodeChar (c : Char) : List Char :=
  ['%', hexDigit (c.toNat / 16), hexDigit c.toNat]

/-- The path percent-encode set (ASCII fragment): C0 controls, space, `"`,
`<`, `>`, backtick U+0060, braces U+007B/U+007D and DEL. -/
def pathEncodeSet (c : Char) : Bool :=
  c ≤ ' ' || c = '"' || c = '<' || c = '>' ||
  c = Char.ofNat 96 || c = Char.ofNat 123 || c = Char.ofNat 125 || c = Char.ofNat 127

/-- Percent-encode the characters of the path percent-encode set. -/
def encodePath (s : List Char) : List Char :=
  (s.map fun c => if pathEncodeSet c then percentEncodeChar c else [c]).flatten

/-- Is the segment `..`? -/
def isDoubleDot (seg : List Char) : Bool := seg = ['.', '.']

/-- Is the segment `.`? -/
def isSingleDot (seg : List Char) : Bool := seg = ['.']

/-- The WHATWG path state over already-split segments: `..` pops the last
output segment, `.` is skipped, other segments are percent-encoded and
appended; a trailing `.` or `..` leaves a trailing empty segment. -/
def dotSegAux (out : List (List Char)) : List (List Char) → List (List Char)
  | [] => out
  | [seg] =>
    if isDoubleDot seg then out.dropLast ++ [[]]
    else if isSingleDot seg then out ++ [[]]
    else out ++ [encodePath seg]
  | seg :: rest =>
    if isDoubleDot seg then dotSegAux out.dropLast rest
    else if isSingleDot seg then dotSegAux out rest
    else dotSegAux (out ++ [encodePath seg]) rest

/-- Parse the path portion (the characters after the authority, before any
`?`/`#`) of an authority URL; for special schemes an empty path serializes
as `/`. -/
def parsePathAbs (raw : List Char) (special : Bool) : List Char :=
  match raw with
  | [] => if special then ['/'] else []
  | _ =>
    let raw' := if raw.head? = some '/' then raw.tail else raw
    let out := dotSegAux [] (splitOnSlash raw')
    (out.map fun seg => '/' :: seg).flatten

/-- Forbidden host code points (ASCII fragment of the WHATWG list, with the
model restriction that userinfo, ports and IP literals are unsupported). -/
def forbiddenHostChar (c : Char) : Bool :=
  c ≤ ' ' || c = '#' || c = '%' || c = '/' || c = ':' || c = '<' || c = '>' ||
  c = '?' || c = '@' || c = '[' || c = '\\' || c = ']' || c = '^' || c = '|' ||
  c = Char.ofNat 127

/-- Host parsing: special schemes require a nonempty host; any forbidden host
code point is a parse failure (the `URL` constructor throws); ASCII letters are
lowercased. -/
def parseHost (raw : List Char) (special : Bool) : Option (List Char) :=
  if raw = [] then if special then none else some []
  else if raw.any forbiddenHostChar then none
  else some (raw.map lowerChar)

/-- Parse `rest` (everything after the scheme and its slashes) as
authority + path + query + fragment. -/
def parseAuthority (scheme : List Char) (rest : List Char) : Option ParsedUrl :=
  let special := specialSchemes.contains scheme
  let (preFrag, frag) := splitFirst '#' rest
  let (preQuery, query) := splitFirst '?' preFrag
  let (hostRaw, pathRaw) := takeUntilAny ['/'] preQuery
  match parseHost hostRaw special with
  | none => none
  | some h =>
    some { scheme := scheme, host := some h, path := parsePathAbs pathRaw special,
           query := query.map encodePath, fragment := frag.map encodePath }

/-- Parse `rest` after a non-special scheme as an opaque-path URL
(the path is kept verbatim, as `javascript:void(0)` shows). -/
def parseOpaque (scheme : List Char) (rest : List Char) : ParsedUrl :=
  let (preFrag, frag) := splitFirst '#' rest
  let (path, query) := splitFirst '?' preFrag
  { scheme := scheme, host := none, path := path,
    query := query.map encodePath, fragment := frag.map encodePath }

/-- Directory prefix of a path: everything up to and including the last `/`. -/
def dirOf (p : List Char) : List Char :=
  (p.reverse.dropWhile fun c => c ≠ '/').reverse

/-- Resolve a scheme-less (or same-special-scheme) reference `s` against the
base `b`: WHATWG relative / relative-slash / path resolution. -/
def parseRelative (b : ParsedUrl) (s : List Char) : Option ParsedUrl :=
  let special := specialSchemes.contains b.scheme
  if s.take 2 = ['/', '/'] then
    parseAuthority b.scheme (if special then s.dropWhile (fun c => c = '/') else s.drop 2)
  else
    let (preFrag, frag) := splitFirst '#' s
    let (p, query) := splitFirst '?' preFrag
    if p = [] then
      some { b with query := match query with
                             | some q => some (encodePath q)
                             | none => b.query,
                    fragment := frag.map encodePath }
    else if p.head? = some '/' then
      some { b with path := parsePathAbs p special, query := query.map encodePath,
                    fragment := frag.map encodePath }
    else
      some { b with path := parsePathAbs (dirOf b.path ++ p) special,
                    query := query.map encodePath, fragment := frag.map encodePath }

/-- Scheme splitting loop: `acc` holds the (lowercased, reversed) scheme
characters seen so far. -/
def schemeSplitGo (acc : List Char) : List Char → Option (List Char × List Char)
  | [] => none
  | c :: cs =>
    if c = ':' then some (acc.reverse, cs)
    else if isSchemeChar c then schemeSplitGo (lowerChar c :: acc) cs
    else none

/-- Split `scheme:rest`, lowercasing the scheme; `none` if the input does not
start with a valid scheme followed by `:`. -/
def schemeSplit : List Char → Option (List Char × List Char)
  | [] => none
  | c :: cs => if isSchemeStartChar c then schemeSplitGo [lowerChar c] cs else none

/-- The WHATWG basic URL parser (fragment; see the module docstring).
Mirrors the state machine: scheme state, special relative-or-authority state
(`base` with the same special scheme and fewer than two slashes resolves
relatively), special-authority-ignore-slashes, path-or-authority for
non-special `//`, opaque-path state, and the no-scheme / relative states. -/
def parseUrl (input : List Char) (base : Option ParsedUrl) : Option ParsedUrl :=
  let s := urlTrim input
  match schemeSplit s with
  | some (sch, rest) =>
    if specialSchemes.contains sch then
      let nslash := (rest.takeWhile fun c => c = '/').length
      match base with
      | some b =>
        if b.scheme = sch ∧ nslash ≤ 1 then parseRelative b rest
        else parseAuthority sch (rest.dropWhile fun c => c = '/')
      | none => parseAuthority sch (rest.dropWhile fun c => c = '/')
    else
      if rest.take 2 = ['/', '/'] then parseAuthority sch (rest.drop 2)
      else some (parseOpaque sch rest)
  | none =>
    match base with
    | none => none
    | some b =>
      match b.host with
      | none =>
        match s with
        | '#' :: fs => some { b with fragment := some (encodePath fs) }
        | _ => none
      | some _ => parseRelative b s

/-- Serialize a parsed URL (the `href` getter). -/
def ParsedUrl.href (u : ParsedUrl) : List Char :=
  u.scheme ++ [':'] ++
  (match u.host with
   | some h => ['/', '/'] ++ h
   | none => []) ++
  u.path ++
  (match u.query with
   | some q => '?' :: q
   | none => []) ++
  (match u.fragment with
   | some f => '#' :: f
   | none => [])

/-- Model of `new URL(url, base).href`: the base is parsed first and its
failure is a throw even for an absolute `url`; then `url` is parsed against
it.  `none` models the constructor throwing. -/
def jsUrlHref (url : String) (baseUrl : String) : Option String :=
  match parseUrl baseUrl.data none with
  | none => none
  | some b =>
    match parseUrl url.data (some b) with
    | none => none
    | some u => some (String.mk u.href)

/-- `normalizeUrl` from `service.ts`: `try { return new URL(url, baseUrl).href }
catch { return "" }`. -/
def normalizeUrl (url : String) (baseUrl : String) : String :=
  match jsUrlHref url baseUrl with
  | some href => href
  | none => ""

/-! ## JavaScript regular expression model -/

/-- Regular expression abstract syntax (the fragment used by the crawler's URL
patterns): empty word, literal, `.`, character class (negated flag + ranges),
concatenation, alternation, Kleene star, `^` and `$` assertions.  `+` and `?`
are desugared during compilation. -/
inductive RE where
  | eps : RE
  | lit : Char → RE
  | dot : RE
  | cls : Bool → List (Char × Char) → RE
  | seq : RE → RE → RE
  | alt : RE → RE → RE
  | star : RE → RE
  | bol : RE
  | eol : RE
  deriving Repr, DecidableEq

/-- Character ranges of the `\d` escape. -/
def digitRanges : List (Char × Char) := [('0', '9')]

/-- Character ranges of the `\w` escape. -/
def wordRanges : List (Char × Char) := [('a', 'z'), ('A', 'Z'), ('0', '9'), ('_', '_')]

/-- Character ranges of the `\s` escape (ASCII fragment). -/
def spaceRanges : List (Char × Char) :=
  [(' ', ' '), ('\t', '\t'), ('\n', '\n'), ('\r', '\r'), (Char.ofNat 11, Char.ofNat 12)]

/-- Translate an escape character (after `\`) appearing outside a class. -/
def escapeAtom (c : Char) : RE :=
  if c = 'd' then RE.cls false digitRanges
  else if c = 'D' then RE.cls true digitRanges
  else if c = 'w' then RE.cls false wordRanges
  else if c = 'W' then RE.cls true wordRanges
  else if c = 's' then RE.cls false spaceRanges
  else if c = 'S' then RE.cls true spaceRanges
  else if c = 'n' then RE.lit '\n'
  else if c = 't' then RE.lit '\t'
  else if c = 'r' then RE.lit '\r'
  else RE.lit c

/-- Parse the items of a character class up to the closing `]`; a reversed
range such as `[z-a]` is a syntax error, as in JavaScript. -/
def parseClassItems : Nat → List Char → Option (List (Char × Char) × List Char)
  | 0, _ => none
  | fuel + 1, cs =>
    match cs with
    | [] => none
    | ']' :: rest => some ([], rest)
    | '\\' :: c :: rest =>
      match parseClassItems fuel rest with
      | some (is, r) => some ((c, c) :: is, r)
      | none => none
    | c :: '-' :: d :: rest =>
      if d = ']' then
        match parseClassItems fuel (']' :: rest) with
        | some (is, r) => some ((c, c) :: ('-', '-') :: is, r)
        | none => none
      else if d.toNat < c.toNat then none
      else
        match parseClassItems fuel rest with
        | some (is, r) => some ((c, d) :: is, r)
        | none => none
    | c :: rest =>
      match parseClassItems fuel rest with
      | some (is, r) => some ((c, c) :: is, r)
      | none => none

/-- Apply an optional postfix quantifier (`*`, `+`, `?`, with an optional lazy
`?` suffix, which does not change the recognized language). -/
def applyQuant (r : RE) : List Char → RE × List Char
  | '*' :: '?' :: cs => (RE.star r, cs)
  | '*' :: cs => (RE.star r, cs)
  | '+' :: '?' :: cs => (RE.seq r (RE.star r), cs)
  | '+' :: cs => (RE.seq r (RE.star r), cs)
  | '?' :: '?' :: cs => (RE.alt r RE.eps, cs)
  | '?' :: cs => (RE.alt r RE.eps, cs)
  | cs => (r, cs)

mutual

/-- Parse an alternation (`a|b|...`); stops at `)` or the end of input. -/
def parseAlt : Nat → List Char → Option (RE × List Char)
  | 0, _ => none
  | fuel + 1, cs =>
    match parseSeq fuel cs with
    | none => none
    | some (r, cs') =>
      match cs' with
      | '|' :: rest =>
        match parseAlt fuel rest with
        | some (r2, cs'') => some (RE.alt r r2, cs'')
        | none => none
      | _ => some (r, cs')

/-- Parse a concatenation of quantified atoms. -/
def parseSeq : Nat → List Char → Option (RE × List Char)
  | 0, _ => none
  | fuel + 1, cs =>
    match cs with
    | [] => some (RE.eps, [])
    | ')' :: _ => some (RE.eps, cs)
    | '|' :: _ => some (RE.eps, cs)
    | _ =>
      match parseAtom fuel cs with
      | none => none
      | some (a, cs') =>
        let (a', cs'') := applyQuant a cs'
        match parseSeq fuel cs'' with
        | none => none
        | some (b, cs''') => some (RE.seq a' b, cs''')

/-- Parse one atom: a group `(...)` / `(?:...)`, a class `[...]`, an escape,
`^`, `$`, `.`, or a literal character.  A dangling quantifier, an unbalanced
bracket or an unsupported group prefix is a syntax error (`new RegExp`
throws). -/
def parseAtom : Nat → List Char → Option (RE × List Char)
  | 0, _ => none
  | _ + 1, [] => none
  | fuel + 1, c :: rest =>
    if c = '(' then
      let rest' := if rest.take 2 = ['?', ':'] then rest.drop 2 else rest
      if rest.head? = some '?' ∧ rest.take 2 ≠ ['?', ':'] then none
      else
        match parseAlt fuel rest' with
        | some (r, ')' :: cs') => some (r, cs')
        | _ => none
    else if c = ')' then none
    else if c = '[' then
      match rest with
      | '^' :: rest' =>
        match parseClassItems (rest'.length + 1) rest' with
        | some (is, cs') => some (RE.cls true is, cs')
        | none => none
      | _ =>
        match parseClassItems (rest.length + 1) rest with
        | some (is, cs') => some (RE.cls false is, cs')
        | none => none
    else if c = '\\' then
      match rest with
      | e :: cs' => some (escapeAtom e, cs')
      | [] => none
    else if c = '^' then some (RE.bol, rest)
    else if c = '$' then some (RE.eol, rest)
    else if c = '.' then some (RE.dot, rest)
    else if c = '*' ∨ c = '+' ∨ c = '?' then none
    else some (RE.lit c, rest)

end

/-- Compile a JavaScript regular expression pattern; `none` models
`new RegExp(pattern)` throwing a `SyntaxError`. -/
def compileRegex (pattern : String) : Option RE :=
  match parseAlt (4 * pattern.length + 8) pattern.data with
  | some (r, []) => some r
  | _ => none

/-- Does `c` fall in one of the ranges? -/
def charInRanges (c : Char) (rs : List (Char × Char)) : Bool :=
  rs.any fun p => p.1 ≤ c && c ≤ p.2

/-- Backtracking matcher in continuation-passing style: does `re` match some
prefix of `s` starting at index `i`, with continuation `k` on the end index?
The fuel only bounds recursion depth; the `star` case requires progress, so a
generous fuel makes the search complete. -/
def mAt : Nat → RE → List Char → Nat → (Nat → Bool) → Bool
  | 0, _, _, _, _ => false
  | fuel + 1, re, s, i, k =>
    match re with
    | .eps => k i
    | .lit c =>
      match s.drop i with
      | c' :: _ => c' = c && k (i + 1)
      | [] => false
    | .dot =>
      match s.drop i with
      | c' :: _ => c' ≠ '\n' && c' ≠ '\r' && k (i + 1)
      | [] => false
    | .cls neg rs =>
      match s.drop i with
      | c' :: _ => (charInRanges c' rs != neg) && k (i + 1)
      | [] => false
    | .seq a b => mAt fuel a s i fun j => mAt fuel b s j k
    | .alt a b => mAt fuel a s i k || mAt fuel b s i k
    | .star a =>
      k i || mAt fuel a s i fun j => if j = i then false else mAt fuel (.star a) s j k
    | .bol => i = 0 && k i
    | .eol => i = s.length && k i

/-- Structural size of a regular expression (used to pick the matcher fuel). -/
def reSize : RE → Nat
  | .eps | .lit _ | .dot | .cls _ _ | .bol | .eol => 1
  | .seq a b | .alt a b => reSize a + reSize b + 1
  | .star a => reSize a + 1

/-- `regex.test(s)`: search for a match starting at every index. -/
def rtest (r : RE) (s : String) : Bool :=
  let cs := s.data
  let fuel := (reSize r + 2) * (cs.length + 2) * 2 + 2
  (List.range (cs.length + 1)).any fun i => mAt fuel r cs i fun _ => true

/-! ## URL classifiers (`isProductUrl` / `isListingUrl` from `service.ts`) -/

/-- `isProductUrl(url, patterns)`: `patterns.some(p => new RegExp(p).test(url))`.
`Except.error` models the per-call `new RegExp` throwing on an invalid pattern;
`some` short-circuits, so patterns after the first match are never compiled. -/
def isProductUrl (url : String) : List String → Except Unit Bool
  | [] => .ok false
  | p :: ps =>
    match compileRegex p with
    | none => .error ()
    | some r => if rtest r url then .ok true else isProductUrl url ps

/-- `isListingUrl(url, patterns)`: textually identical to `isProductUrl` in the
source: `patterns.some(p => new RegExp(p).test(url))`. -/
def isListingUrl (url : String) : List String → Except Unit Bool
  | [] => .ok false
  | p :: ps =>
    match compileRegex p with
    | none => .error ()
    | some r => if rtest r url then .ok true else isListingUrl url ps

/-! ## The `EcommerceCrawler` model -/

/-- `CrawlerConfig` from `service.ts`.  `maxPages = none` models the optional
field being absent. -/
structure CrawlerConfig where
  startUrls : List String
  productListingUrlPatterns : List String
  productCardSelectors : List String
  productUrlPatterns : List String
  paginationSelectors : List String
  productLinkSelectors : List String
  maxPages : Option Nat := none
  deriving Repr, DecidableEq

/-- The `EcommerceCrawler` constructor body:
`this.config = { maxPages: 1000, ...config }` — the only processing is the
`maxPages` default; no pattern is compiled or validated here. -/
def mergeConfig (config : CrawlerConfig) : CrawlerConfig :=
  { config with maxPages := some (config.maxPages.getD 1000) }

/-- The `transformRequestFunction` closure of the default handler:
`const url = normalizeUrl(req.url, baseUrl); if (!this.processedUrls.has(url)
&& isListingUrl(url, this.config.productListingUrlPatterns))
{ this.processedUrls.add(url); return req; } return false;`.
Returns whether the request is kept together with the updated
`processedUrls`; `Except.error` models `isListingUrl` throwing (the `&&`
short-circuits, so a URL already in the set never reaches `isListingUrl`). -/
def transformRequestFunction (patterns : List String) (processedUrls : List String)
    (baseUrl reqUrl : String) : Except Unit (Bool × List String) :=
  let url := normalizeUrl reqUrl baseUrl
  if url ∈ processedUrls then .ok (false, processedUrls)
  else
    match isListingUrl url patterns with
    | .error e => .error e
    | .ok true => .ok (true, url :: processedUrls)
    | .ok false => .ok (false, processedUrls)

/-- A product-card element of a rendered page: the CSS selectors the element
matches (DOM matching is the external engine's capability and is kept
abstract) and the resolved `href` of its first `a[href]` descendant, if any. -/
structure ElemModel where
  selectors : List String
  firstAnchorHref : Option String
  deriving Repr, DecidableEq

/-- The extraction output: `{ link: linkElement?.href || null }`. -/
structure ProductRecord where
  link : Option String
  deriving Repr, DecidableEq

/-- The selector string hardcoded in the detail handler:
`document.querySelectorAll(".rilrtl-products-list__item")`. -/
def productCardSelector : String := ".rilrtl-products-list__item"

/-- The `page.evaluate` body of the detail handler: query all elements
matching the hardcoded card selector and map each to a record whose `link` is
`linkElement?.href || null` (so a missing anchor, and an empty-string `href`,
both give `null`). -/
def extractProducts (cards : List ElemModel) : List ProductRecord :=
  (cards.filter fun card => card.selectors.contains productCardSelector).map fun card =>
    { link := match card.firstAnchorHref with
              | some href => if href = "" then none else some href
              | none => none }

/-- A rendered page as presented by the crawling engine: `request.loadedUrl`
(absent if navigation produced none), the candidate outbound link request URLs
that `enqueueLinks` passes to `transformRequestFunction`, and the page's
elements. -/
structure PageModel where
  loadedUrl : Option String
  links : List String
  cards : List ElemModel

/-- Router label of an enqueued request: requests without a label go to the
default handler; `enqueueLinks` in the default handler labels everything
`"detail"`. -/
inductive HandlerLabel where
  | defaultLabel : HandlerLabel
  | detail : HandlerLabel
  deriving Repr, DecidableEq

/-- Run `transformRequestFunction` over the candidate links the way
`enqueueLinks` does: each link mutates `processedUrls`; the kept requests are
collected (with their original request URL — the transform returns `req`
unchanged); a thrown error aborts the whole `enqueueLinks` call, so mutations
made before the throw persist but nothing is enqueued. -/
def enqueueLinksTransform (patterns : List String) (processedUrls : List String)
    (baseUrl : String) : List String → List String × List String × Bool
  | [] => (processedUrls, [], false)
  | l :: ls =>
    match transformRequestFunction patterns processedUrls baseUrl l with
    | .error _ => (processedUrls, [], true)
    | .ok (enq, processedUrls') =>
      match enqueueLinksTransform patterns processedUrls' baseUrl ls with
      | (p, q, err) => (p, if enq then l :: q else q, err)

/-- Crawler run state: the request queue, the `processedUrls` set, the
fetched-page log, the extracted records and the handled-request counter. -/
structure RunState where
  queue : List (String × HandlerLabel)
  processedUrls : List String
  fetched : List String
  records : List ProductRecord
  handledCount : Nat
  deriving Repr, DecidableEq

/-- Dispatch one fetched request to its router handler.  The default handler
returns immediately when `request.loadedUrl` is falsy, otherwise runs
`enqueueLinks` with the transform and label `"detail"`; the detail handler
only extracts records and enqueues nothing. -/
def handleRequest (env : String → PageModel) (patterns : List String)
    (url : String) (label : HandlerLabel) (s : RunState) : RunState :=
  match label with
  | .detail => { s with records := s.records ++ extractProducts (env url).cards }
  | .defaultLabel =>
    match (env url).loadedUrl with
    | none => s
    | some baseUrl =>
      match enqueueLinksTransform patterns s.processedUrls baseUrl (env url).links with
      | (p, reqs, err) =>
        { s with processedUrls := p,
                 queue := s.queue ++
                   (if err then [] else reqs.map fun r => (r, HandlerLabel.detail)) }

/-- The engine's request loop: pop the next request, stop once
`maxRequestsPerCrawl` requests have been handled, otherwise fetch the page
(recording it), run the handler and continue.  The fuel equals
`maxRequestsPerCrawl` at the top-level call, which bounds the iterations. -/
def crawlLoop (env : String → PageModel) (patterns : List String)
    (maxRequests : Nat) : Nat → RunState → RunState
  | 0, s => s
  | fuel + 1, s =>
    match s.queue with
    | [] => s
    | (url, label) :: rest =>
      if s.handledCount < maxRequests then
        crawlLoop env patterns maxRequests fuel
          (handleRequest env patterns url label
            { s with queue := rest, fetched := s.fetched ++ [url],
                     handledCount := s.handledCount + 1 })
      else s

/-- Initial run state: `crawler.run(this.config.startUrls)` hands the seed
URLs to the engine verbatim (unlabelled, hence routed to the default
handler); `processedUrls` starts empty. -/
def crawlerInit (config : CrawlerConfig) : RunState :=
  { queue := config.startUrls.map fun u => (u, HandlerLabel.defaultLabel),
    processedUrls := [], fetched := [], records := [], handledCount := 0 }

/-- `EcommerceCrawler.run()`: the crawler is created with
`maxRequestsPerCrawl: this.config.maxPages! * 2` (the comment in the source
says "Account for product & category pages") and run on the seed URLs. -/
def crawlerRun (env : String → PageModel) (config : CrawlerConfig) : RunState :=
  let cfg := mergeConfig config
  let maxRequests := cfg.maxPages.getD 1000 * 2
  crawlLoop env cfg.productListingUrlPatterns maxRequests maxRequests (crawlerInit cfg)

/-! ## Traces of `transformRequestFunction` calls -/

/-- The `processedUrls` set after one `transformRequestFunction` call
(a throw leaves the set unchanged: the `add` only runs after `isListingUrl`
returns `true`).  The operation is a (source page URL, request URL) pair. -/
def applyTransform (patterns : List String) (processed : List String)
    (op : String × String) : List String :=
  match transformRequestFunction patterns processed op.1 op.2 with
  | .error _ => processed
  | .ok (_, p) => p

/-- The `processedUrls` set after a sequence of `transformRequestFunction`
calls, in any order and from any source pages. -/
def runTrace (patterns : List String) (processed : List String)
    (ops : List (String × String)) : List String :=
  ops.foldl (applyTransform patterns) processed

/-! ## Supporting lemmas -/

theorem subset_applyTransform (patterns processed : List String) (op : String × String) :
    processed ⊆ applyTransform patterns processed op := by
  intro x hx
  unfold applyTransform transformRequestFunction
  by_cases h : normalizeUrl op.2 op.1 ∈ processed
  · simp [h, hx]
  · cases hm : isListingUrl (normalizeUrl op.2 op.1) patterns with
    | error e => simp [h, hm, hx]
    | ok b => cases b <;> simp [h, hm, hx]

theorem subset_runTrace (patterns processed : List String) (ops : List (String × String)) :
    processed ⊆ runTrace patterns processed ops := by
  induction ops generalizing processed with
  | nil => exact fun x hx => hx
  | cons op ops ih =>
    exact (subset_applyTransform patterns processed op).trans (ih _)

theorem transform_of_mem (patterns processed : List String) (base req : String)
    (h : normalizeUrl req base ∈ processed) :
    transformRequestFunction patterns processed base req = .ok (false, processed) := by
  unfold transformRequestFunction
  simp [h]

theorem handleRequest_fetched (env : String → PageModel) (patterns : List String)
    (url : String) (label : HandlerLabel) (s : RunState) :
    (handleRequest env patterns url label s).fetched = s.fetched := by
  unfold handleRequest
  cases label with
  | detail => rfl
  | defaultLabel =>
    cases (env url).loadedUrl with
    | none => rfl
    | some baseUrl => rfl

theorem crawlLoop_fetched_le (env : String → PageModel) (patterns : List String)
    (maxRequests : Nat) (fuel : Nat) (s : RunState) :
    (crawlLoop env patterns maxRequests fuel s).fetched.length ≤ s.fetched.length + fuel := by
  induction fuel generalizing s with
  | zero => simp [crawlLoop]
  | succ n ih =>
    unfold crawlLoop
    split
    · omega
    · split
      · refine le_trans (ih _) ?_
        rw [handleRequest_fetched]
        simp only [List.length_append, List.length_cons, List.length_nil]
        omega
      · omega

/-! ## Claim C1 -/

/-- C1 (confirmed) — At-most-once enqueue: when a `transformRequestFunction`
call claims a URL (returns the request with the normalized URL freshly
inserted), the normalized URL is in the updated `processedUrls`, the set only
grew, it keeps growing along any further sequence of transform calls (no entry
is ever removed), and every later claim attempt whose normalized form is the
same — from any source page — returns `false` with the set unchanged. -/
theorem c1_at_most_once_enqueue (patterns processed : List String) (base req : String)
    (p' : List String)
    (hclaim : transformRequestFunction patterns processed base req = .ok (true, p'))
    (ops : List (String × String)) (base2 req2 : String)
    (hsame : normalizeUrl req2 base2 = normalizeUrl req base) :
    normalizeUrl req base ∈ p' ∧ processed ⊆ p' ∧
    p' ⊆ runTrace patterns p' ops ∧
    transformRequestFunction patterns (runTrace patterns p' ops) base2 req2 =
      .ok (false, runTrace patterns p' ops) := by
  have hp' : p' = normalizeUrl req base :: processed := by
    unfold transformRequestFunction at hclaim
    by_cases h : normalizeUrl req base ∈ processed
    · simp [h] at hclaim
    · simp only [h, if_neg, if_false] at hclaim
      cases hm : isListingUrl (normalizeUrl req base) patterns with
      | error e => rw [hm] at hclaim; cases hclaim
      | ok b =>
        cases b with
        | true => rw [hm] at hclaim; cases hclaim; rfl
        | false => rw [hm] at hclaim; cases hclaim
  have hmem : normalizeUrl req base ∈ p' := by rw [hp']; exact List.mem_cons_self _ _
  refine ⟨hmem, ?_, subset_runTrace patterns p' ops, ?_⟩
  · rw [hp']; exact fun x hx => List.mem_cons_of_mem _ hx
  · exact transform_of_mem _ _ _ _ (by rw [hsame]; exact subset_runTrace patterns p' ops hmem)

/-- Witness for C1 at concrete inputs: the link `/shop/sale/c/123` on page
`https://www.ajio.com/` is claimed once; rediscovered from
`https://www.myntra.com/` in absolute form, the second claim fails. -/
theorem c1_at_most_once_enqueue_witness :
    transformRequestFunction ["/c/"] [] "https://www.ajio.com/" "/shop/sale/c/123" =
      .ok (true, ["https://www.ajio.com/shop/sale/c/123"]) ∧
    normalizeUrl "https://www.ajio.com/shop/sale/c/123" "https://www.myntra.com/" =
      normalizeUrl "/shop/sale/c/123" "https://www.ajio.com/" ∧
    (normalizeUrl "/shop/sale/c/123" "https://www.ajio.com/" ∈
        (["https://www.ajio.com/shop/sale/c/123"] : List String) ∧
      ([] : List String) ⊆ ["https://www.ajio.com/shop/sale/c/123"] ∧
      (["https://www.ajio.com/shop/sale/c/123"] : List String) ⊆
        runTrace ["/c/"] ["https://www.ajio.com/shop/sale/c/123"]
          [("https://www.myntra.com/", "https://www.ajio.com/shop/sale/c/123")] ∧
      transformRequestFunction ["/c/"]
          (runTrace ["/c/"] ["https://www.ajio.com/shop/sale/c/123"]
            [("https://www.myntra.com/", "https://www.ajio.com/shop/sale/c/123")])
          "https://www.myntra.com/" "https://www.ajio.com/shop/sale/c/123" =
        .ok (false,
          runTrace ["/c/"] ["https://www.ajio.com/shop/sale/c/123"]
            [("https://www.myntra.com/", "https://www.ajio.com/shop/sale/c/123")])) :=
  ⟨rfl, by decide,
    c1_at_most_once_enqueue ["/c/"] [] "https://www.ajio.com/" "/shop/sale/c/123"
      ["https://www.ajio.com/shop/sale/c/123"] rfl
      [("https://www.myntra.com/", "https://www.ajio.com/shop/sale/c/123")]
      "https://www.myntra.com/" "https://www.ajio.com/shop/sale/c/123" (by decide)⟩

/-! ## Claim C2 -/

/-- Environment for the C2 counterexample: the seed page links to one URL
matching the listing pattern. -/
def c2Env : String → PageModel := fun u =>
  if u = "https://site.example/" then
    { loadedUrl := some "https://site.example/",
      links := ["https://site.example/a/c/1"], cards := [] }
  else { loadedUrl := some u, links := [], cards := [] }

/-- Configuration for the C2 counterexample: `maxPages = 1`. -/
def c2Config : CrawlerConfig :=
  { startUrls := ["https://site.example/"], productListingUrlPatterns := ["/c/"],
    productCardSelectors := [], productUrlPatterns := [], paginationSelectors := [],
    productLinkSelectors := [], maxPages := some 1 }

/-- C2 counterexample: with `maxPages = 1` the run fetches two pages, because
the engine is configured with `maxRequestsPerCrawl: maxPages * 2` and the core
performs no pre-enqueue budget check at all, so the total page count is not
capped by `maxPages`. -/
theorem c2_counterexample :
    c2Config.maxPages = some 1 ∧
    (crawlerRun c2Env c2Config).fetched.length = 2 ∧
    ¬ (crawlerRun c2Env c2Config).fetched.length ≤ 1 :=
  ⟨rfl, by decide, by decide⟩

/-- C2 (amended) — the only budget is the engine-side `maxRequestsPerCrawl`,
set to twice `maxPages` (defaulted to 1000): the number of pages fetched in a
run never exceeds `2 * maxPages`; no enqueue is ever suppressed by a budget
check in the core. -/
theorem c2_page_budget_doubled (env : String → PageModel) (config : CrawlerConfig) :
    (crawlerRun env config).fetched.length ≤ 2 * ((mergeConfig config).maxPages.getD 1000) := by
  unfold crawlerRun
  refine le_trans (crawlLoop_fetched_le _ _ _ _ _) ?_
  simp [crawlerInit, mergeConfig, Nat.mul_comm]

/-! ## Claim C8 -/

/-- C8 (confirmed) — detail-pattern noninterference: the run never reads
`productUrlPatterns` (`isProductUrl` is never called), so two configurations
differing only in that field produce identical runs — same fetched pages, same
queue contents and labels, same `processedUrls`, same records — against any
environment. -/
theorem c8_detail_pattern_noninterference (env : String → PageModel)
    (config : CrawlerConfig) (ps : List String) :
    crawlerRun env { config with productUrlPatterns := ps } = crawlerRun env config := rfl

/-! ## Claim C9 -/

/-- C9 (confirmed) — `isProductUrl` and `isListingUrl` are the same function:
they agree on every URL and pattern list (including agreeing on which pattern
lists raise), and both return `false` on the empty pattern list. -/
theorem c9_classifiers_coincide (url : String) (patterns : List String) :
    isProductUrl url patterns = isListingUrl url patterns ∧
    isProductUrl url [] = .ok false ∧ isListingUrl url [] = .ok false := by
  refine ⟨?_, rfl, rfl⟩
  induction patterns with
  | nil => rfl
  | cons p ps ih =>
    simp only [isProductUrl, isListingUrl]
    cases compileRegex p with
    | none => rfl
    | some r =>
      by_cases h : rtest r url
      · simp [h]
      · simp [h, ih]

/-! ## Claim C10 -/

/-- Environment for the C10 run: the seed page lists itself as an outbound
link. -/
def c10Env : String → PageModel := fun u =>
  if u = "https://site.example/c/1" then
    { loadedUrl := some "https://site.example/c/1",
      links := ["https://site.example/c/1"], cards := [] }
  else { loadedUrl := some u, links := [], cards := [] }

/-- Configuration for the C10 run: the seed itself matches the listing
pattern. -/
def c10Config : CrawlerConfig :=
  { startUrls := ["https://site.example/c/1"], productListingUrlPatterns := ["/c/"],
    productCardSelectors := [], productUrlPatterns := [], paginationSelectors := [],
    productLinkSelectors := [], maxPages := some 5 }

/-- C10 (confirmed) — seeds bypass the pipeline: the seed URLs are handed to
the engine verbatim (unlabelled, `processedUrls` untouched, no normalization,
classification or budget logic applied); consequently, in the concrete run, a
seed rediscovered as an outbound link of its own page is still claimed and
enqueued, so the same URL is fetched twice. -/
theorem c10_seeds_bypass_pipeline (config : CrawlerConfig) :
    (crawlerInit config).queue =
      config.startUrls.map (fun u => (u, HandlerLabel.defaultLabel)) ∧
    (crawlerInit config).processedUrls = [] ∧
    (crawlerRun c10Env c10Config).fetched =
      ["https://site.example/c/1", "https://site.example/c/1"] ∧
    (crawlerRun c10Env c10Config).processedUrls = ["https://site.example/c/1"] :=
  ⟨rfl, rfl, by decide, by decide⟩

/-! ## Claim C3 -/

theorem handleRequest_default_labels (env : String → PageModel) (patterns : List String)
    (url : String) (s : RunState) (e : String × HandlerLabel)
    (he : e ∈ (handleRequest env patterns url HandlerLabel.defaultLabel s).queue) :
    e ∈ s.queue ∨ e.2 = HandlerLabel.detail := by
  unfold handleRequest at he
  cases hl : (env url).loadedUrl with
  | none => rw [hl] at he; exact Or.inl he
  | some baseUrl =>
    rw [hl] at he
    have he' : e ∈ s.queue ++
        (if (enqueueLinksTransform patterns s.processedUrls baseUrl (env url).links).2.2
         then []
         else (enqueueLinksTransform patterns s.processedUrls baseUrl
                 (env url).links).2.1.map fun r => (r, HandlerLabel.detail)) := he
    rcases Bool.eq_false_or_eq_true
        ((enqueueLinksTransform patterns s.processedUrls baseUrl (env url).links).2.2) with
      herr | herr
    · rw [herr] at he'
      have he2 : e ∈ s.queue ++ ([] : List (String × HandlerLabel)) := he'
      rw [List.append_nil] at he2
      exact Or.inl he2
    · rw [herr] at he'
      have he2 : e ∈ s.queue ++
          ((enqueueLinksTransform patterns s.processedUrls baseUrl
              (env url).links).2.1.map fun r => (r, HandlerLabel.detail)) := he'
      rcases List.mem_append.mp he2 with h1 | h1
      · exact Or.inl h1
      · rcases List.mem_map.mp h1 with ⟨r, hr, hre⟩
        exact Or.inr (by rw [← hre])

/-- C3 counterexample: with pattern list `[""]` (the empty pattern matches
every string, including the empty sentinel), the link `http://a b/` — whose
normalization against the page URL fails — is still claimed and kept by the
transform, so "enqueued only if normalization succeeds" is false, and the
sentinel `""` itself is inserted into `processedUrls`. -/
theorem c3_counterexample :
    normalizeUrl "http://a b/" "https://www.ajio.com/" = "" ∧
    transformRequestFunction [""] [] "https://www.ajio.com/" "http://a b/" =
      .ok (true, [""]) :=
  ⟨by decide, rfl⟩

/-- C3 (amended) — frontier routing: an outbound link is kept by the
transform exactly when its normalized form (which may be the `""` sentinel of
a failed normalization) is not yet in `processedUrls` and `isListingUrl`
accepts it; there is no budget condition; and every request the default
handler appends to the queue carries the `detail` label. -/
theorem c3_frontier_routing (patterns processed : List String) (base req : String) :
    ((∃ p', transformRequestFunction patterns processed base req = .ok (true, p')) ↔
      normalizeUrl req base ∉ processed ∧
        isListingUrl (normalizeUrl req base) patterns = .ok true) ∧
    ∀ (env : String → PageModel) (url : String) (s : RunState)
      (e : String × HandlerLabel),
      e ∈ (handleRequest env patterns url HandlerLabel.defaultLabel s).queue →
      e ∈ s.queue ∨ e.2 = HandlerLabel.detail := by
  refine ⟨⟨?_, ?_⟩, fun env url s e he => handleRequest_default_labels env patterns url s e he⟩
  · rintro ⟨p', hp⟩
    unfold transformRequestFunction at hp
    by_cases h : normalizeUrl req base ∈ processed
    · simp [h] at hp
    · refine ⟨h, ?_⟩
      rw [if_neg h] at hp
      cases hm : isListingUrl (normalizeUrl req base) patterns with
      | error e => rw [hm] at hp; cases hp
      | ok b =>
        cases b with
        | true => rfl
        | false => rw [hm] at hp; cases hp
  · rintro ⟨h, hm⟩
    refine ⟨normalizeUrl req base :: processed, ?_⟩
    unfold transformRequestFunction
    rw [if_neg h, hm]

/-! ## Claim C4 -/

/-- C4 counterexample: `javascript:void(0)` is not rejected by the URL
constructor — it parses as an opaque-path URL — so `normalizeUrl` returns it
verbatim, not the empty/invalid sentinel. -/
theorem c4_counterexample :
    normalizeUrl "javascript:void(0)" "https://www.ajio.com/" = "javascript:void(0)" ∧
    normalizeUrl "javascript:void(0)" "https://www.ajio.com/" ≠ "" :=
  ⟨by decide, by decide⟩

/-- C4 (amended) — invalid-sentinel handling: for a link on which the URL
constructor actually throws, `normalizeUrl` returns the `""` sentinel instead
of failing the caller, and — provided no configured pattern matches the empty
string — the link is never classified as listing, never inserted into
`processedUrls` and never kept for enqueueing.  (Links with parsable but
non-fetchable schemes such as `javascript:` are returned as-is, and are
only dropped because the configured patterns do not match them.) -/
theorem c4_invalid_sentinel (link base : String) (patterns processed : List String)
    (hfail : jsUrlHref link base = none)
    (hpat : isListingUrl "" patterns = .ok false) :
    normalizeUrl link base = "" ∧
    transformRequestFunction patterns processed base link = .ok (false, processed) := by
  have hn : normalizeUrl link base = "" := by unfold normalizeUrl; rw [hfail]
  refine ⟨hn, ?_⟩
  unfold transformRequestFunction
  rw [hn]
  by_cases h : ("" : String) ∈ processed
  · rw [if_pos h]
  · rw [if_neg h, hpat]

/-- Witness for C4 at a concrete input: the constructor throws on
`http://a b/` (space in the host), and with the pattern list `["ajio"]` the
sentinel is never claimed. -/
theorem c4_invalid_sentinel_witness :
    jsUrlHref "http://a b/" "https://www.ajio.com/" = none ∧
    isListingUrl "" ["ajio"] = .ok false ∧
    (normalizeUrl "http://a b/" "https://www.ajio.com/" = "" ∧
      transformRequestFunction ["ajio"] ["https://x.example/"] "https://www.ajio.com/"
          "http://a b/" =
        .ok (false, ["https://x.example/"])) :=
  ⟨by decide, rfl,
    c4_invalid_sentinel "http://a b/" "https://www.ajio.com/" ["ajio"]
      ["https://x.example/"] (by decide) rfl⟩

/-! ## Claim C5 -/

/-- Configuration with a syntactically invalid listing pattern. -/
def c5Config : CrawlerConfig :=
  { startUrls := ["https://site.example/"], productListingUrlPatterns := ["("],
    productCardSelectors := [], productUrlPatterns := [], paginationSelectors := [],
    productLinkSelectors := [], maxPages := some 5 }

/-- Environment for the C5 counterexample: every page links to one URL. -/
def c5Env : String → PageModel := fun u =>
  { loadedUrl := some u, links := ["https://site.example/x"], cards := [] }

/-- C5 counterexample: with the invalid pattern `"("` the constructor still
succeeds (it performs no validation — the pattern survives into the merged
configuration), the crawl starts and fetches the seed page, and the error
only arises per-URL when classification first compiles the pattern.  So the
error does not surface at configuration time before crawling starts. -/
theorem c5_counterexample :
    (mergeConfig c5Config).productListingUrlPatterns = ["("] ∧
    (crawlerRun c5Env c5Config).fetched = ["https://site.example/"] ∧
    isListingUrl "https://site.example/x" ["("] = .error () :=
  ⟨rfl, by decide, rfl⟩

/-- C5 (amended) — patterns are compiled per classification call, not at
configuration time: the constructor copies the pattern list unvalidated, a
classification call that matches an earlier pattern never even compiles the
later ones (`some` short-circuits), and a classification call that reaches an
invalid pattern such as `"("` raises then. -/
theorem c5_lazy_pattern_compilation (url : String) (p : String) (ps : List String)
    (r : RE) (config : CrawlerConfig)
    (hc : compileRegex p = some r) (hm : rtest r url = true) :
    (mergeConfig config).productListingUrlPatterns = config.productListingUrlPatterns ∧
    isListingUrl url (p :: ps) = .ok true ∧
    isListingUrl url ("(" :: ps) = .error () := by
  have hbad : compileRegex "(" = none := by decide
  refine ⟨rfl, ?_, ?_⟩
  · simp only [isListingUrl]
    rw [hc]
    show (if rtest r url = true then Except.ok true else isListingUrl url ps) =
      Except.ok true
    rw [hm, if_pos rfl]
  · simp only [isListingUrl]
    rw [hbad]

/-- Witness for C5 at a concrete input: the pattern `/c/` compiles and
matches, so the invalid pattern behind it is never compiled. -/
theorem c5_lazy_pattern_compilation_witness :
    compileRegex "/c/" = some ((compileRegex "/c/").getD RE.eps) ∧
    rtest ((compileRegex "/c/").getD RE.eps) "https://site.example/a/c/1" = true ∧
    ((mergeConfig c5Config).productListingUrlPatterns = c5Config.productListingUrlPatterns ∧
      isListingUrl "https://site.example/a/c/1" ["/c/", "("] = .ok true ∧
      isListingUrl "https://site.example/a/c/1" ["(", "("] = .error ()) :=
  ⟨rfl, by decide,
    c5_lazy_pattern_compilation "https://site.example/a/c/1" "/c/" ["("]
      ((compileRegex "/c/").getD RE.eps) c5Config rfl (by decide)⟩

/-! ## Claim C6 -/

/-- The `productCardSelectors` value configured in `main.ts`. -/
def mainConfigProductCardSelectors : List String := [".product-base"]

/-- A card element matching the configured selector but not the hardcoded
one. -/
def c6Card : ElemModel :=
  { selectors := [".product-base"], firstAnchorHref := some "https://site.example/p/1" }

/-- C6 counterexample: a card matching every selector of the configured
`productCardSelectors` yields no record, because the detail handler queries
the hardcoded selector `.rilrtl-products-list__item` instead of the
configured one. -/
theorem c6_counterexample :
    (∀ sel ∈ mainConfigProductCardSelectors, c6Card.selectors.contains sel = true) ∧
    extractProducts [c6Card] = [] :=
  ⟨by decide, rfl⟩

/-- C6 (amended) — extraction contract with the hardcoded selector: the
detail handler produces exactly one record per card matching
`.rilrtl-products-list__item`, in document order; each record's `link` is the
card's first anchor's resolved href, with a missing anchor (or an empty href,
through `|| null`) giving `null`; zero matching cards give the empty record
list, not an error. -/
theorem c6_extraction_contract (cards : List ElemModel) (i : Nat) :
    (extractProducts cards).length =
      (cards.filter fun c => c.selectors.contains productCardSelector).length ∧
    ((cards.filter fun c => c.selectors.contains productCardSelector) = [] →
      extractProducts cards = []) ∧
    (extractProducts cards)[i]? =
      ((cards.filter fun c => c.selectors.contains productCardSelector)[i]?).map
        (fun card => { link := match card.firstAnchorHref with
                               | some href => if href = "" then none else some href
                               | none => none }) := by
  unfold extractProducts
  exact ⟨List.length_map _ _, fun h => by rw [h]; rfl, List.getElem?_map _ _ _⟩

/-! ## Claim C7 -/

theorem take_two_slashes (l : List Char) (h : l.take 2 = ['/', '/']) :
    ∃ t, l = '/' :: '/' :: t := by
  cases l with
  | nil => simp at h
  | cons a l' =>
    cases l' with
    | nil => simp at h
    | cons b t =>
      simp only [List.take_succ_cons, List.take_zero] at h
      injection h with h1 h2
      injection h2 with h3 _
      exact ⟨t, by rw [h1, h3]⟩

/-- When the (trimmed) input carries a scheme, and a special scheme is
followed by `//`, the parse does not depend on the base: the special branch
always takes the authority path, and the non-special branch never reads the
base at all. -/
theorem parseUrl_base_irrelevant (s : List Char) (b : ParsedUrl) (sch rest : List Char)
    (hscheme : schemeSplit (urlTrim s) = some (sch, rest))
    (hslash : specialSchemes.contains sch = true → rest.take 2 = ['/', '/']) :
    parseUrl s (some b) = parseUrl s none := by
  unfold parseUrl
  simp only [hscheme]
  by_cases hsp : specialSchemes.contains sch = true
  · obtain ⟨t, ht⟩ := take_two_slashes rest (hslash hsp)
    have hn : ¬ (b.scheme = sch ∧ ((rest.takeWhile fun c => c = '/').length ≤ 1)) := by
      rintro ⟨-, hle⟩
      rw [ht] at hle
      simp [List.takeWhile_cons] at hle
    simp only [hsp, if_true, if_neg hn]
  · simp only [hsp]
    rfl

/-- C7 counterexample: the malformed string `::not a url::` does not yield
the invalid sentinel against a valid base — it resolves as a relative path
reference (spaces percent-encoded) — so the second half of the round-trip
claim fails on the code. -/
theorem c7_counterexample :
    normalizeUrl "::not a url::" "https://www.ajio.com/" =
      "https://www.ajio.com/::not%20a%20url::" ∧
    normalizeUrl "::not a url::" "https://www.ajio.com/" ≠ "" :=
  ⟨by decide, by decide⟩

/-- C7 (amended) — normalization round-trip: an already-absolute URL in
canonical form (it has a scheme; a special scheme is followed by `//`; it
carries no stray whitespace; it reparses to a record whose serialization is
itself) normalizes to itself against any base that itself parses; and the
`""` sentinel is returned exactly when the URL constructor rejects the pair —
which for a malformed relative string against a valid base need not happen,
as the counterexample shows. -/
theorem c7_normalization_roundtrip (u b : String) (r : ParsedUrl) (sch rest : List Char)
    (htrim : urlTrim u.data = u.data)
    (hscheme : schemeSplit u.data = some (sch, rest))
    (hslash : specialSchemes.contains sch = true → rest.take 2 = ['/', '/'])
    (hparse : parseUrl u.data none = some r)
    (hhref : String.mk r.href = u)
    (hbase : (parseUrl b.data none).isSome = true) :
    normalizeUrl u b = u ∧
    ∀ l bb : String, jsUrlHref l bb = none → normalizeUrl l bb = "" := by
  constructor
  · obtain ⟨rb, hrb⟩ := Option.isSome_iff_exists.mp hbase
    have hbi : parseUrl u.data (some rb) = parseUrl u.data none :=
      parseUrl_base_irrelevant u.data rb sch rest (by rw [htrim]; exact hscheme) hslash
    have hj : jsUrlHref u b = some u := by
      unfold jsUrlHref
      rw [hrb]
      show (match parseUrl u.data (some rb) with
            | none => none
            | some u' => some (String.mk u'.href)) = some u
      rw [hbi, hparse]
      show some (String.mk r.href) = some u
      rw [hhref]
    unfold normalizeUrl
    rw [hj]
  · intro l bb h
    unfold normalizeUrl
    rw [h]

/-- Witness for C7 at a concrete input: the canonical absolute URL
`https://www.ajio.com/shop/sale/c/123` normalizes to itself against the valid
base `https://www.myntra.com/`. -/
theorem c7_normalization_roundtrip_witness :
    urlTrim "https://www.ajio.com/shop/sale/c/123".data =
      "https://www.ajio.com/shop/sale/c/123".data ∧
    schemeSplit "https://www.ajio.com/shop/sale/c/123".data =
      some ("https".data, "//www.ajio.com/shop/sale/c/123".data) ∧
    parseUrl "https://www.ajio.com/shop/sale/c/123".data none =
      some ((parseUrl "https://www.ajio.com/shop/sale/c/123".data none).getD
        ⟨[], none, [], none, none⟩) ∧
    (parseUrl "https://www.myntra.com/".data none).isSome = true ∧
    (normalizeUrl "https://www.ajio.com/shop/sale/c/123" "https://www.myntra.com/" =
        "https://www.ajio.com/shop/sale/c/123" ∧
      ∀ l bb : String, jsUrlHref l bb = none → normalizeUrl l bb = "") :=
  ⟨by decide, by decide, rfl, rfl,
    c7_normalization_roundtrip "https://www.ajio.com/shop/sale/c/123"
      "https://www.myntra.com/"
      ((parseUrl "https://www.ajio.com/shop/sale/c/123".data none).getD
        ⟨[], none, [], none, none⟩)
      "https".data "//www.ajio.com/shop/sale/c/123".data
      (by decide) (by decide) (fun _ => by decide) rfl (by decide) rfl⟩

end Crawler
